import Mathlib

/-!
Verification of the pagination client in `twitch_wrapper` (`src/lib.rs`).

The development shallowly embeds the reusable core of the library:

* a JSON value model mirroring `serde_json::Value` as used by the code
  (only the variants the code inspects matter: objects, arrays, strings);
* the single-request executor `Twitch::query` (lines 97-130), with the
  token semantics of `Method::from_str` from the `http` crate and the
  2xx status test of `reqwest`;
* the header builder `Twitch::get_headers` (lines 66-73), with the
  byte validity test of `HeaderValue::from_bytes` from the `http` crate;
* the page-count computation `(count as f64 / endpoint_maximum as f64).ceil() as u64`
  (line 175), modelled with exact dyadic arithmetic and IEEE-754
  round-to-nearest-even to 53 significand bits;
* the pagination loop of `Twitch::query_paginated` (lines 167-213), driven by
  an abstract upstream `Nat → Resp` giving the response to the i-th HTTP call.

Panics in the source (`unwrap` on a missing/ill-typed cursor or data field at
lines 204-208, and the debug-mode overflow check of the unsigned subtraction
`count - items.len()` at line 190) are modelled as explicit outcomes, distinct
from returned errors.
-/

/-- JSON values as inspected by the code (`serde_json::Value`).  Numbers are
modelled as integers: the pagination logic never inspects numeric payloads, it
only moves them around.  Objects are association lists; envelopes reaching
this code come from parsed JSON, whose maps have unique keys. -/
inductive Json where
  | null : Json
  | str (s : String) : Json
  | num (n : Int) : Json
  | arr (xs : List Json) : Json
  | obj (fields : List (String × Json)) : Json

/-- First-match lookup in the field list of an object (unique keys in practice). -/
def lookupField : List (String × Json) → String → Json
  | [], _ => Json.null
  | (k, v) :: rest, key => if k = key then v else lookupField rest key

/-- Indexing `value[key]` with a string key: field of an object, `Null`
otherwise (the `Index<&str>` impl of `serde_json` returns `Null` when reading
a non-object). -/
def Json.get : Json → String → Json
  | Json.obj fields, key => lookupField fields key
  | _, _ => Json.null

/-- Model of `Value::as_str`: `Some` exactly on the string variant. -/
def Json.asStr : Json → Option String
  | Json.str s => some s
  | _ => none

/-- Model of `Value::as_array`: `Some` exactly on the array variant. -/
def Json.asArr : Json → Option (List Json)
  | Json.arr xs => some xs
  | _ => none

/-- Error classification of the `anyhow::Error` values `Twitch::query` can
return: `Method::from_str` failure, `send()` transport failure, non-2xx
status (`anyhow::bail!` at line 120), and JSON parse/shape failure. -/
inductive QError where
  | invalidMethod : QError
  | requestFailed : QError
  | unsuccessfulStatus (code : Nat) : QError
  | deserializationFailed : QError

/-- One upstream HTTP exchange, as seen by the executor: either the transport
fails, or a status code arrives with a body that either parses as JSON
(`some j`) or does not (`none`). -/
inductive Resp where
  | transportErr : Resp
  | response (status : Nat) (body : Option Json) : Resp

/-- Token bytes: `Method::from_bytes` of the `http` crate accepts RFC 7230
token bytes, i.e. alphanumerics, the punctuation `!#$%&*+-.^_|~`, and the
two characters with codes 39 (apostrophe) and 96 (backtick), the last two
matched by code point to keep them out of the source text. -/
def isTokenChar (c : Char) : Bool :=
  c.isAlphanum || "!#$%&*+-.^_|~".toList.contains c || c.toNat = 39 || c.toNat = 96

/-- Validity test of `Method::from_str`: it succeeds iff the string is a
nonempty token; standard verbs are matched exactly (byte equality with
`GET`, `PUT`, ...) and every other token is accepted as an extension
method. -/
def methodValid (s : String) : Bool :=
  !s.isEmpty && s.toList.all isTokenChar

/-- Result of one call to `Twitch::query`: either it failed before issuing the
HTTP request (invalid method string), or the request went out and produced a
typed result or a classified error. -/
inductive QueryOut (β : Type) where
  | noCall (e : QError) : QueryOut β
  | called (r : Except QError β) : QueryOut β

/-- The post-transport part of `Twitch::query` (lines 118-129): check
`status().is_success()` (i.e. 2xx), then deserialize the body into the target
type, here abstracted as a decoder `dec : Json → Option β`. -/
def respValue (resp : Resp) (dec : Json → Option β) : Except QError β :=
  match resp with
  | Resp.transportErr => Except.error QError.requestFailed
  | Resp.response status body =>
    if 200 ≤ status ∧ status < 300 then
      match body with
      | none => Except.error QError.deserializationFailed
      | some j =>
        match dec j with
        | none => Except.error QError.deserializationFailed
        | some v => Except.ok v
    else Except.error (QError.unsuccessfulStatus status)

/-- Model of `Twitch::query` (lines 97-130): `Method::from_str(method)?`
fails before any network call; otherwise the call is made and classified by
`respValue`. -/
def query (method : String) (resp : Resp) (dec : Json → Option β) : QueryOut β :=
  if methodValid method then QueryOut.called (respValue resp dec)
  else QueryOut.noCall QError.invalidMethod

/-- Byte validity of `HeaderValue::from_bytes`: it accepts byte `9` (tab)
and visible bytes `32..=255` except `127` (DEL). -/
def headerByteValid (b : Nat) : Bool :=
  (32 ≤ b && b ≠ 127) || b = 9

/-- Model of `Twitch::get_headers` (lines 66-73) over the bytes of the
client id.  The header name `client-id` always parses; the `Result` of the
value constructor is `unwrap`ped, so an invalid byte is a panic, modelled as
`none` — there is no error-return path. -/
def get_headers (clientId : List Nat) : Option (List (String × List Nat)) :=
  if clientId.all headerByteValid then some [("client-id", clientId)] else none

/-- Cursor extraction `raw_data["pagination"]["cursor"].as_str()` (lines
204-206). -/
def envCursor (j : Json) : Option String :=
  ((j.get "pagination").get "cursor").asStr

/-- Item-array extraction `raw_data["data"].as_array()` (line 208). -/
def envItems (j : Json) : Option (List Json) :=
  (j.get "data").asArr

/-- What one loop iteration of `query_paginated` extracts from the i-th
exchange: a cursor and decoded items, a returned error, or an `unwrap` panic
on a malformed envelope. -/
inductive PageRes (α : Type) where
  | ok (cursor : String) (its : List α) : PageRes α
  | err (e : QError) : PageRes α
  | panic : PageRes α

/-- The body of one `query_paginated` iteration after the `first`/`after`
parameters are attached (lines 203-210): run `self.query::<Value>`, `unwrap`
the cursor, `unwrap` the data array, then round-trip the array through a
string and decode it into `Vec<T>` — which succeeds iff every element decodes,
modelled by `mapM dec`. -/
def pageResult (dec : Json → Option α) (r : Resp) : PageRes α :=
  match respValue r (fun v => some v) with
  | Except.error e => PageRes.err e
  | Except.ok raw =>
    match envCursor raw with
    | none => PageRes.panic
    | some cursor =>
      match envItems raw with
      | none => PageRes.panic
      | some arr =>
        match arr.mapM dec with
        | none => PageRes.err QError.deserializationFailed
        | some its => PageRes.ok cursor its

/-- Floor base-2 logarithm of `n ≥ 1`, computed with explicit fuel so that
the kernel can evaluate it (the core `Nat.log2` is defined by well-founded
recursion, which the kernel cannot unfold). -/
def log2fuel : Nat → Nat → Nat
  | 0, _ => 0
  | fuel + 1, n => if 2 ≤ n then log2fuel fuel (n / 2) + 1 else 0

/-- Floor base-2 logarithm of a positive rational `a / b ≥ 2^-300`,
recovered as `⌊log2 ⌊a·2^300/b⌋⌋ - 300`. -/
def ratLog2 (a b : ℕ) : ℤ :=
  (log2fuel 600 (a * 2 ^ 300 / b) : ℤ) - 300

/-- Round the positive rational `a / b` to the nearest IEEE-754 binary64 value
(53 significand bits, round to nearest, ties to even), returned exactly as a
dyadic `(m, e)` with value `m · 2^e` and `2^52 ≤ m ≤ 2^53`.  The candidate
mantissa `a/b · 2^-e` is compared to its floor via `2·remainder` against the
denominator, with the tie going to the even mantissa. -/
def rnd53pair (a b : ℕ) : ℕ × ℤ :=
  let e : ℤ := ratLog2 a b - 52
  let num := if 0 ≤ e then a else a * 2 ^ (-e).toNat
  let den := if 0 ≤ e then b * 2 ^ e.toNat else b
  let f := num / den
  let r := num % den
  let m := if 2 * r < den then f
    else if den < 2 * r then f + 1
    else if f % 2 = 0 then f else f + 1
  (m, e)

/-- Ceiling of a dyadic `m · 2^e` with natural mantissa (`f64::ceil` is
exact on the nonnegative doubles produced here). -/
def dyadicCeil (m : ℕ) (e : ℤ) : ℕ :=
  if 0 ≤ e then m * 2 ^ e.toNat
  else (m + 2 ^ (-e).toNat - 1) / 2 ^ (-e).toNat

/-- The value `u64::MAX`. -/
def u64max : ℕ := 2 ^ 64 - 1

/-- Line 175: `(count as f64 / endpoint_maximum as f64).ceil() as u64`.
The two `u64 → f64` conversions round to nearest (ties to even); the division
rounds the exact quotient of the two rounded doubles the same way; `ceil` of a
nonnegative finite double is exact; the `as u64` cast saturates.  For
`endpoint_maximum = 0` the quotient is `NaN` (cast to 0) when `count = 0` and
`+∞` (saturating to `u64::MAX`) otherwise; for `count = 0` it is `+0.0`. -/
def pages_to_request (count em : ℕ) : ℕ :=
  if em = 0 then (if count = 0 then 0 else u64max)
  else if count = 0 then 0
  else
    let c := rnd53pair count 1
    let d := rnd53pair em 1
    let a := if 0 ≤ c.2 - d.2 then c.1 * 2 ^ (c.2 - d.2).toNat else c.1
    let b := if 0 ≤ c.2 - d.2 then d.1 else d.1 * 2 ^ (d.2 - c.2).toNat
    let q := rnd53pair a b
    min (dyadicCeil q.1 q.2) u64max

/-- One HTTP request issued by the client: method, endpoint and the query
pair list actually attached (base pairs first, then `first`, then `after`,
exactly the push order of lines 195-202). -/
structure IssuedRequest where
  method : String
  endpoint : String
  queryPairs : List (String × String)

/-- Final outcome of a `query_paginated` run: the returned `Ok` items, a
returned `Err`, an `unwrap` panic on a malformed envelope (lines 206/208), or
the debug-mode overflow panic of `count - items.len()` (line 190). -/
inductive Outcome (α : Type) where
  | ok (items : List α) : Outcome α
  | error (e : QError) : Outcome α
  | panicUnwrap : Outcome α
  | panicOverflow : Outcome α

/-- A full run: the requests issued, in order, and the outcome. -/
structure PagRun (α : Type) where
  requests : List IssuedRequest
  outcome : Outcome α

/-- The loop of `query_paginated` (lines 186-211).  `i` is the loop index
(used to address the upstream response to the i-th call), `rem` the number of
iterations left (`rem + i = pages_to_request`), `items` the accumulator and
`after` the current cursor.  The last iteration (`rem = 0` inside the body)
requests `count - items.len()`, whose debug-mode overflow check fires before
the request is built. -/
def pagStep (dec : Json → Option α) (method endpoint : String)
    (baseQuery : List (String × String)) (em count : ℕ) (upstream : ℕ → Resp) :
    ℕ → ℕ → List α → String → PagRun α
  | _, 0, items, _ => ⟨[], Outcome.ok items⟩
  | i, rem + 1, items, after =>
    if rem = 0 ∧ count < items.length then ⟨[], Outcome.panicOverflow⟩
    else
      let req_count : ℕ := if rem = 0 then count - items.length else em
      let req : IssuedRequest :=
        ⟨method, endpoint, baseQuery ++ [("first", toString req_count), ("after", after)]⟩
      match query method (upstream i) (fun v => some v) with
      | QueryOut.noCall e => ⟨[], Outcome.error e⟩
      | QueryOut.called (Except.error e) => ⟨[req], Outcome.error e⟩
      | QueryOut.called (Except.ok raw) =>
        match envCursor raw with
        | none => ⟨[req], Outcome.panicUnwrap⟩
        | some cursor =>
          match envItems raw with
          | none => ⟨[req], Outcome.panicUnwrap⟩
          | some arr =>
            match arr.mapM dec with
            | none => ⟨[req], Outcome.error QError.deserializationFailed⟩
            | some data_items =>
              let rest := pagStep dec method endpoint baseQuery em count upstream
                (i + 1) rem (items ++ data_items) cursor
              ⟨req :: rest.requests, rest.outcome⟩

/-- Model of `Twitch::query_paginated` (lines 167-213), over an abstract
upstream (`upstream i` is the response to the i-th HTTP call) and an
abstract item decoder for `T`. -/
def query_paginated (dec : Json → Option α) (method endpoint : String)
    (query : Option (List (String × String))) (em count : ℕ)
    (upstream : ℕ → Resp) : PagRun α :=
  pagStep dec method endpoint (query.getD []) em count upstream
    0 (pages_to_request count em) [] ""

/-- Value of the last pair with the given key in a query-pair list — the pair
that `query_paginated` itself appended, since `first`/`after` are pushed after
the base pairs supplied by the caller. -/
def lastLookup (key : String) : List (String × String) → Option String
  | [] => none
  | (k, v) :: rest =>
    match lastLookup key rest with
    | some r => some r
    | none => if k = key then some v else none

/-- Concatenation of the page item lists `l i, l (i+1), ..., l (i+n-1)`. -/
def catItems (l : ℕ → List α) : ℕ → ℕ → List α
  | _, 0 => []
  | i, n + 1 => l i ++ catItems l (i + 1) n

/-- The request built by a loop iteration: caller pairs, then `first`, then
`after`. -/
def mkReq (method endpoint : String) (bq : List (String × String))
    (n : ℕ) (after : String) : IssuedRequest :=
  ⟨method, endpoint, bq ++ [("first", toString n), ("after", after)]⟩

set_option maxRecDepth 10000

set_option exponentiation.threshold 700

lemma pagStep_zero (dec : Json → Option α) (method endpoint : String)
    (bq : List (String × String)) (em count : ℕ) (up : ℕ → Resp)
    (i : ℕ) (items : List α) (after : String) :
    pagStep dec method endpoint bq em count up i 0 items after
      = ⟨[], Outcome.ok items⟩ := rfl

/-- One unfolding of the loop body, phrased through `pageResult`, assuming the
method string parses. -/
lemma pagStep_succ (dec : Json → Option α) (method endpoint : String)
    (bq : List (String × String)) (em count : ℕ) (up : ℕ → Resp)
    (i rem : ℕ) (items : List α) (after : String)
    (hm : methodValid method = true) :
    pagStep dec method endpoint bq em count up i (rem + 1) items after =
      if rem = 0 ∧ count < items.length then ⟨[], Outcome.panicOverflow⟩
      else
        match pageResult dec (up i) with
        | PageRes.err e =>
          ⟨[mkReq method endpoint bq (if rem = 0 then count - items.length else em) after],
            Outcome.error e⟩
        | PageRes.panic =>
          ⟨[mkReq method endpoint bq (if rem = 0 then count - items.length else em) after],
            Outcome.panicUnwrap⟩
        | PageRes.ok cursor its =>
          ⟨mkReq method endpoint bq (if rem = 0 then count - items.length else em) after ::
              (pagStep dec method endpoint bq em count up (i + 1) rem (items ++ its) cursor).requests,
            (pagStep dec method endpoint bq em count up (i + 1) rem (items ++ its) cursor).outcome⟩ := by
  by_cases hg : rem = 0 ∧ count < items.length
  · rw [if_pos hg]
    simp only [pagStep]
    rw [if_pos hg]
  · rw [if_neg hg]
    simp only [pagStep]
    rw [if_neg hg]
    unfold pageResult query
    rw [hm]
    simp only [if_true]
    cases hrv : respValue (up i) (fun v => some v) with
    | error e => simp only [hrv, mkReq]
    | ok raw =>
      simp only [hrv]
      cases hc : envCursor raw with
      | none => simp only [hc, mkReq]
      | some cursor =>
        simp only [hc]
        cases hi : envItems raw with
        | none => simp only [hi, mkReq]
        | some arr =>
          simp only [hi]
          cases hd : arr.mapM dec with
          | none => simp only [hd, mkReq]
          | some its => simp only [hd, mkReq]

lemma lastLookup_first (bq : List (String × String)) (x y : String) :
    lastLookup "first" (bq ++ [("first", x), ("after", y)]) = some x := by
  induction bq with
  | nil => rfl
  | cons p rest ih =>
    cases p with
    | mk k v => simp only [List.cons_append, lastLookup, List.append_eq, ih]

lemma lastLookup_after (bq : List (String × String)) (x y : String) :
    lastLookup "after" (bq ++ [("first", x), ("after", y)]) = some y := by
  induction bq with
  | nil => rfl
  | cons p rest ih =>
    cases p with
    | mk k v => simp only [List.cons_append, lastLookup, List.append_eq, ih]

lemma catItems_len_const (xs : List α) : ∀ n i,
    (catItems (fun _ => xs) i n).length = n * xs.length := by
  intro n
  induction n with
  | zero => intro i; simp [catItems]
  | succ n ih =>
    intro i
    simp only [catItems, List.length_append, ih, Nat.succ_mul]
    omega

lemma pages_to_request_zero (em : ℕ) : pages_to_request 0 em = 0 := by
  by_cases h : em = 0 <;> simp [pages_to_request, h]

/-- The run outcome caused by a non-`ok` page: a returned error aborts the
call, a malformed envelope panics. -/
def stopOut : PageRes α → Option (Outcome α)
  | PageRes.err e => some (Outcome.error e)
  | PageRes.panic => some Outcome.panicUnwrap
  | PageRes.ok _ _ => none

/-- Success characterization of the loop: if each remaining page yields a
cursor and items, and the items accumulated before the last page fit in
`count` (so that `count - items.len()` does not underflow), the run returns
the accumulator plus the items of every page, in page order, and issues one request
per page. -/
lemma pagStep_run_ok (dec : Json → Option α) (method endpoint : String)
    (bq : List (String × String)) (em count : ℕ) (up : ℕ → Resp)
    (c : ℕ → String) (l : ℕ → List α)
    (hm : methodValid method = true) :
    ∀ rem i (items : List α) (after : String),
      (∀ j, j < rem → pageResult dec (up (i + j)) = PageRes.ok (c (i + j)) (l (i + j))) →
      (1 ≤ rem → items.length + (catItems l i (rem - 1)).length ≤ count) →
      (pagStep dec method endpoint bq em count up i rem items after).outcome
          = Outcome.ok (items ++ catItems l i rem) ∧
        (pagStep dec method endpoint bq em count up i rem items after).requests.length = rem := by
  intro rem
  induction rem with
  | zero =>
    intro i items after _ _
    simp [pagStep_zero, catItems]
  | succ rem ih =>
    intro i items after hok hlen
    rw [pagStep_succ dec method endpoint bq em count up i rem items after hm]
    have hg : ¬(rem = 0 ∧ count < items.length) := by
      rintro ⟨h0, hlt⟩
      have := hlen (by omega)
      rw [h0] at this
      simp only [catItems, List.length_nil, Nat.add_zero] at this
      omega
    rw [if_neg hg]
    have h0 : pageResult dec (up i) = PageRes.ok (c i) (l i) := by
      have := hok 0 (Nat.succ_pos rem)
      simpa using this
    rw [h0]
    dsimp only
    have hok' : ∀ j, j < rem →
        pageResult dec (up (i + 1 + j)) = PageRes.ok (c (i + 1 + j)) (l (i + 1 + j)) := by
      intro j hj
      have h := hok (j + 1) (by omega)
      have e : i + (j + 1) = i + 1 + j := by omega
      rw [e] at h
      exact h
    have hlen' : 1 ≤ rem →
        (items ++ l i).length + (catItems l (i + 1) (rem - 1)).length ≤ count := by
      intro h1
      have h := hlen (by omega)
      obtain ⟨rem', rfl⟩ : ∃ r, rem = r + 1 := ⟨rem - 1, by omega⟩
      simp only [catItems, List.length_append, Nat.add_sub_cancel,
        Nat.succ_sub_one] at h ⊢
      omega
    obtain ⟨ho, hl⟩ := ih (i + 1) (items ++ l i) (c i) hok' hlen'
    refine ⟨?_, ?_⟩
    · rw [ho]
      simp [catItems, List.append_assoc]
    · simp [List.length_cons, hl]

/-- Abort characterization of the loop: if the pages before index `f` all
yield items, the items accumulated before a final bad page fit in `count`
(so the overflow check does not fire first), and page `f` itself is an error
or an `unwrap` panic, the run stops at page `f` with the corresponding
outcome, having issued exactly `f + 1` requests — the items of the earlier
pages are discarded. -/
lemma pagStep_run_stop (dec : Json → Option α) (method endpoint : String)
    (bq : List (String × String)) (em count : ℕ) (up : ℕ → Resp)
    (c : ℕ → String) (l : ℕ → List α) (po : PageRes α) (o : Outcome α)
    (hm : methodValid method = true) (hso : stopOut po = some o) :
    ∀ f rem i (items : List α) (after : String),
      f < rem →
      (∀ j, j < f → pageResult dec (up (i + j)) = PageRes.ok (c (i + j)) (l (i + j))) →
      (f + 1 = rem → items.length + (catItems l i f).length ≤ count) →
      pageResult dec (up (i + f)) = po →
      (pagStep dec method endpoint bq em count up i rem items after).outcome = o ∧
        (pagStep dec method endpoint bq em count up i rem items after).requests.length = f + 1 := by
  intro f
  induction f with
  | zero =>
    intro rem i items after hf hok hguard hpo
    obtain ⟨rem', rfl⟩ : ∃ r, rem = r + 1 := ⟨rem - 1, by omega⟩
    rw [pagStep_succ dec method endpoint bq em count up i rem' items after hm]
    have hg : ¬(rem' = 0 ∧ count < items.length) := by
      rintro ⟨h0, hlt⟩
      have := hguard (by omega)
      simp only [catItems, List.length_nil, Nat.add_zero] at this
      omega
    rw [if_neg hg]
    have h0 : pageResult dec (up i) = po := by simpa using hpo
    rw [h0]
    cases po with
    | ok cursor its => simp [stopOut] at hso
    | err e =>
      simp only [stopOut, Option.some.injEq] at hso
      subst hso
      simp
    | panic =>
      simp only [stopOut, Option.some.injEq] at hso
      subst hso
      simp
  | succ f ih =>
    intro rem i items after hf hok hguard hpo
    obtain ⟨rem', rfl⟩ : ∃ r, rem = r + 1 := ⟨rem - 1, by omega⟩
    rw [pagStep_succ dec method endpoint bq em count up i rem' items after hm]
    have hg : ¬(rem' = 0 ∧ count < items.length) := by
      rintro ⟨h0, hlt⟩
      omega
    rw [if_neg hg]
    have h0 : pageResult dec (up i) = PageRes.ok (c i) (l i) := by
      have := hok 0 (Nat.succ_pos f)
      simpa using this
    rw [h0]
    dsimp only
    have hok' : ∀ j, j < f →
        pageResult dec (up (i + 1 + j)) = PageRes.ok (c (i + 1 + j)) (l (i + 1 + j)) := by
      intro j hj
      have h := hok (j + 1) (by omega)
      have e : i + (j + 1) = i + 1 + j := by omega
      rw [e] at h
      exact h
    have hguard' : f + 1 = rem' →
        (items ++ l i).length + (catItems l (i + 1) f).length ≤ count := by
      intro h1
      have h := hguard (by omega)
      simp only [catItems, List.length_append] at h ⊢
      omega
    have hpo' : pageResult dec (up (i + 1 + f)) = po := by
      have e : i + (f + 1) = i + 1 + f := by omega
      rw [e] at hpo
      exact hpo
    obtain ⟨ho, hl⟩ := ih rem' (i + 1) (items ++ l i) (c i) (by omega) hok' hguard' hpo'
    exact ⟨ho, by simp [List.length_cons, hl]⟩

/-- If every successful page before the last delivers at most `em` items, and
the items the earlier pages can accumulate fit in `count`
(`items.length + (rem - 1) * em ≤ count`), the debug overflow check of
`count - items.len()` never fires. -/
lemma pagStep_no_overflow (dec : Json → Option α) (method endpoint : String)
    (bq : List (String × String)) (em count : ℕ) (up : ℕ → Resp)
    (hm : methodValid method = true) :
    ∀ rem i (items : List α) (after : String),
      (∀ j, j + 1 < i + rem → ∀ cs its,
        pageResult dec (up j) = PageRes.ok cs its → its.length ≤ em) →
      items.length + (rem - 1) * em ≤ count →
      (pagStep dec method endpoint bq em count up i rem items after).outcome
        ≠ Outcome.panicOverflow := by
  intro rem
  induction rem with
  | zero =>
    intro i items after _ _
    simp [pagStep_zero]
  | succ rem ih =>
    intro i items after hcomp hinv
    rw [pagStep_succ dec method endpoint bq em count up i rem items after hm]
    have hg : ¬(rem = 0 ∧ count < items.length) := by
      rintro ⟨h0, hlt⟩
      subst h0
      simp only [Nat.sub_self, Nat.zero_mul, Nat.add_zero] at hinv
      omega
    rw [if_neg hg]
    cases hpr : pageResult dec (up i) with
    | err e => simp
    | panic => simp
    | ok cursor its =>
      dsimp only
      cases rem with
      | zero => simp [pagStep_zero]
      | succ rem' =>
        apply ih (i + 1) (items ++ its) cursor
        · intro j hj cs its' h
          exact hcomp j (by omega) cs its' h
        · have hits : its.length ≤ em := hcomp i (by omega) cursor its hpr
          simp only [List.length_append, Nat.succ_sub_one] at hinv ⊢
          have : (rem' + 1) * em = rem' * em + em := by ring
          omega

/-- If every page delivers a well-formed envelope, and the items delivered
before the last page overshoot `count`, the debug overflow check of
`count - items.len()` fires at the last page: the run panics. -/
lemma pagStep_run_overflow (dec : Json → Option α) (method endpoint : String)
    (bq : List (String × String)) (em count : ℕ) (up : ℕ → Resp)
    (c : ℕ → String) (l : ℕ → List α)
    (hm : methodValid method = true)
    (hall : ∀ j, pageResult dec (up j) = PageRes.ok (c j) (l j)) :
    ∀ rem i (items : List α) (after : String),
      1 ≤ rem →
      count < items.length + (catItems l i (rem - 1)).length →
      (pagStep dec method endpoint bq em count up i rem items after).outcome
        = Outcome.panicOverflow := by
  intro rem
  induction rem with
  | zero => intro i items after h1 _; omega
  | succ rem ih =>
    intro i items after _ hover
    rw [pagStep_succ dec method endpoint bq em count up i rem items after hm]
    cases rem with
    | zero =>
      have hg : (0 = 0 ∧ count < items.length) := by
        refine ⟨rfl, ?_⟩
        simpa [catItems] using hover
      rw [if_pos hg]
    | succ rem' =>
      have hg : ¬(rem' + 1 = 0 ∧ count < items.length) := by
        rintro ⟨h0, _⟩
        exact Nat.succ_ne_zero rem' h0
      rw [if_neg hg]
      rw [hall i]
      dsimp only
      apply ih (i + 1) (items ++ l i) (c i) (by omega)
      simp only [Nat.succ_sub_one, catItems, List.length_append] at hover ⊢
      omega

/-- Every request except the one for the last planned page carries
`first = endpoint_maximum`. -/
lemma pagStep_first_param (dec : Json → Option α) (method endpoint : String)
    (bq : List (String × String)) (em count : ℕ) (up : ℕ → Resp)
    (hm : methodValid method = true) :
    ∀ k rem i (items : List α) (after : String) (r : IssuedRequest),
      (pagStep dec method endpoint bq em count up i rem items after).requests.get? k = some r →
      k + 1 < rem →
      lastLookup "first" r.queryPairs = some (toString em) := by
  intro k
  induction k with
  | zero =>
    intro rem i items after r hget hk
    obtain ⟨rem', rfl⟩ : ∃ t, rem = t + 1 := ⟨rem - 1, by omega⟩
    rw [pagStep_succ dec method endpoint bq em count up i rem' items after hm] at hget
    by_cases hg : rem' = 0 ∧ count < items.length
    · rw [if_pos hg] at hget
      simp at hget
    · rw [if_neg hg] at hget
      have hrem : ¬rem' = 0 := by omega
      cases hpr : pageResult dec (up i) with
      | ok cursor its =>
        rw [hpr] at hget
        dsimp only at hget
        simp only [List.get?] at hget
        cases hget
        rw [mkReq, if_neg hrem]
        exact lastLookup_first bq (toString em) after
      | err e =>
        rw [hpr] at hget
        dsimp only at hget
        simp only [List.get?] at hget
        cases hget
        rw [mkReq, if_neg hrem]
        exact lastLookup_first bq (toString em) after
      | panic =>
        rw [hpr] at hget
        dsimp only at hget
        simp only [List.get?] at hget
        cases hget
        rw [mkReq, if_neg hrem]
        exact lastLookup_first bq (toString em) after
  | succ k ih =>
    intro rem i items after r hget hk
    obtain ⟨rem', rfl⟩ : ∃ t, rem = t + 1 := ⟨rem - 1, by omega⟩
    rw [pagStep_succ dec method endpoint bq em count up i rem' items after hm] at hget
    by_cases hg : rem' = 0 ∧ count < items.length
    · rw [if_pos hg] at hget
      simp at hget
    · rw [if_neg hg] at hget
      cases hpr : pageResult dec (up i) with
      | ok cursor its =>
        rw [hpr] at hget
        dsimp only at hget
        simp only [List.get?] at hget
        exact ih rem' (i + 1) (items ++ its) cursor r hget (by omega)
      | err e =>
        rw [hpr] at hget
        dsimp only at hget
        simp at hget
      | panic =>
        rw [hpr] at hget
        dsimp only at hget
        simp at hget

/-- The first request a (suffix of the) loop issues carries the current
cursor as its `after` parameter. -/
lemma pagStep_head_after (dec : Json → Option α) (method endpoint : String)
    (bq : List (String × String)) (em count : ℕ) (up : ℕ → Resp)
    (hm : methodValid method = true) :
    ∀ rem i (items : List α) (after : String) (r : IssuedRequest),
      (pagStep dec method endpoint bq em count up i rem items after).requests.get? 0 = some r →
      lastLookup "after" r.queryPairs = some after := by
  intro rem i items after r hget
  cases rem with
  | zero =>
    rw [pagStep_zero] at hget
    simp at hget
  | succ rem' =>
    rw [pagStep_succ dec method endpoint bq em count up i rem' items after hm] at hget
    by_cases hg : rem' = 0 ∧ count < items.length
    · rw [if_pos hg] at hget
      simp at hget
    · rw [if_neg hg] at hget
      cases hpr : pageResult dec (up i) with
      | ok cursor its =>
        rw [hpr] at hget
        dsimp only at hget
        simp only [List.get?] at hget
        cases hget
        exact lastLookup_after bq _ after
      | err e =>
        rw [hpr] at hget
        dsimp only at hget
        simp only [List.get?] at hget
        cases hget
        exact lastLookup_after bq _ after
      | panic =>
        rw [hpr] at hget
        dsimp only at hget
        simp only [List.get?] at hget
        cases hget
        exact lastLookup_after bq _ after

/-- Cursor threading: the `after` parameter of request `k + 1` is exactly the
cursor extracted from the response to request `k`. -/
lemma pagStep_after_cursor (dec : Json → Option α) (method endpoint : String)
    (bq : List (String × String)) (em count : ℕ) (up : ℕ → Resp)
    (hm : methodValid method = true) :
    ∀ k rem i (items : List α) (after : String) (r : IssuedRequest),
      (pagStep dec method endpoint bq em count up i rem items after).requests.get? (k + 1)
        = some r →
      ∃ cs its, pageResult dec (up (i + k)) = PageRes.ok cs its ∧
        lastLookup "after" r.queryPairs = some cs := by
  intro k
  induction k with
  | zero =>
    intro rem i items after r hget
    cases rem with
    | zero =>
      rw [pagStep_zero] at hget
      simp at hget
    | succ rem' =>
      rw [pagStep_succ dec method endpoint bq em count up i rem' items after hm] at hget
      by_cases hg : rem' = 0 ∧ count < items.length
      · rw [if_pos hg] at hget
        simp at hget
      · rw [if_neg hg] at hget
        cases hpr : pageResult dec (up i) with
        | ok cursor its =>
          rw [hpr] at hget
          dsimp only at hget
          simp only [List.get?] at hget
          refine ⟨cursor, its, by simpa using hpr, ?_⟩
          exact pagStep_head_after dec method endpoint bq em count up hm
            rem' (i + 1) (items ++ its) cursor r hget
        | err e =>
          rw [hpr] at hget
          dsimp only at hget
          simp at hget
        | panic =>
          rw [hpr] at hget
          dsimp only at hget
          simp at hget
  | succ k ih =>
    intro rem i items after r hget
    cases rem with
    | zero =>
      rw [pagStep_zero] at hget
      simp at hget
    | succ rem' =>
      rw [pagStep_succ dec method endpoint bq em count up i rem' items after hm] at hget
      by_cases hg : rem' = 0 ∧ count < items.length
      · rw [if_pos hg] at hget
        simp at hget
      · rw [if_neg hg] at hget
        cases hpr : pageResult dec (up i) with
        | ok cursor its =>
          rw [hpr] at hget
          dsimp only at hget
          simp only [List.get?] at hget
          obtain ⟨cs, its', h1, h2⟩ := ih rem' (i + 1) (items ++ its) cursor r hget
          refine ⟨cs, its', ?_, h2⟩
          have e : i + (k + 1) = i + 1 + k := by omega
          rw [e]
          exact h1
        | err e =>
          rw [hpr] at hget
          dsimp only at hget
          simp at hget
        | panic =>
          rw [hpr] at hget
          dsimp only at hget
          simp at hget

/-- Mock page 1 of the `test_query_paginated` test in the repository: two
items, cursor `abc`. -/
def env12 : Json :=
  Json.obj [("data", Json.arr [Json.num 1, Json.num 2]),
            ("pagination", Json.obj [("cursor", Json.str "abc")])]

/-- Mock page 2: two items, cursor `def`. -/
def env34 : Json :=
  Json.obj [("data", Json.arr [Json.num 3, Json.num 4]),
            ("pagination", Json.obj [("cursor", Json.str "def")])]

/-- Mock page 3: two items, cursor `ghi`. -/
def env56 : Json :=
  Json.obj [("data", Json.arr [Json.num 5, Json.num 6]),
            ("pagination", Json.obj [("cursor", Json.str "ghi")])]

/-- The upstream of the `test_query_paginated` test: three pages of two
items each. -/
def upstream3 : ℕ → Resp
  | 0 => Resp.response 200 (some env12)
  | 1 => Resp.response 200 (some env34)
  | _ + 2 => Resp.response 200 (some env56)

/-- The cursors of the pages of `upstream3`. -/
def cur3 : ℕ → String
  | 0 => "abc"
  | 1 => "def"
  | _ + 2 => "ghi"

/-- The item lists of the pages of `upstream3`. -/
def its3 : ℕ → List Json
  | 0 => [Json.num 1, Json.num 2]
  | 1 => [Json.num 3, Json.num 4]
  | _ + 2 => [Json.num 5, Json.num 6]

lemma pageResult_upstream3 : ∀ j,
    pageResult (fun v => some v) (upstream3 j) = PageRes.ok (cur3 j) (its3 j) := by
  intro j
  match j with
  | 0 => rfl
  | 1 => rfl
  | _ + 2 => rfl

lemma its3_len : ∀ j, (its3 j).length = 2 := by
  intro j
  match j with
  | 0 => rfl
  | 1 => rfl
  | _ + 2 => rfl

/-- An under-delivering upstream: every page returns a single item with
cursor `k`. -/
def envU : Json :=
  Json.obj [("data", Json.arr [Json.num 7]),
            ("pagination", Json.obj [("cursor", Json.str "k")])]

/-- Constant upstream delivering one item per page. -/
def upU : ℕ → Resp := fun _ => Resp.response 200 (some envU)

/-- An over-delivering envelope: six items per page, cursor `z`. -/
def envOver : Json :=
  Json.obj [("data", Json.arr [Json.num 1, Json.num 2, Json.num 3,
              Json.num 4, Json.num 5, Json.num 6]),
            ("pagination", Json.obj [("cursor", Json.str "z")])]

/-- Constant upstream delivering six items per page. -/
def upOver : ℕ → Resp := fun _ => Resp.response 200 (some envOver)

/-- A malformed envelope: no `pagination` block at all. -/
def envNoCursor : Json :=
  Json.obj [("data", Json.arr [Json.num 1])]

/-- Upstream whose first page has no pagination cursor. -/
def upNoCursor : ℕ → Resp := fun _ => Resp.response 200 (some envNoCursor)

/-- A malformed envelope: a well-formed cursor but no `data` array. -/
def envNoData : Json :=
  Json.obj [("pagination", Json.obj [("cursor", Json.str "c")])]

/-- Upstream with a good first page and a second page missing its `data`
array. -/
def upGoodThenNoData : ℕ → Resp
  | 0 => Resp.response 200 (some env12)
  | _ + 1 => Resp.response 200 (some envNoData)

/-- Upstream with a good first page and an HTTP 500 on every later page. -/
def upFail2 : ℕ → Resp
  | 0 => Resp.response 200 (some env12)
  | _ + 1 => Resp.response 500 (some (Json.obj []))

/-- Claim C9: for every `endpoint_maximum > 0`, calling `query_paginated`
with `count = 0` returns an empty sequence successfully and issues zero HTTP
calls: `ceil(0 / em) = 0`, so the loop body never runs. -/
theorem c9_count_zero {α : Type} (dec : Json → Option α) (method endpoint : String)
    (q : Option (List (String × String))) (em : ℕ) (up : ℕ → Resp)
    (_hem : 0 < em) :
    query_paginated dec method endpoint q em 0 up = ⟨[], Outcome.ok []⟩ := by
  unfold query_paginated
  rw [pages_to_request_zero]
  rfl

theorem c9_count_zero_witness :
    0 < 2 ∧
      query_paginated (fun v => some v) "GET" "streams" none 2 0
          (fun _ => Resp.transportErr)
        = ⟨[], Outcome.ok []⟩ :=
  ⟨by decide,
    c9_count_zero (fun v => some v) "GET" "streams" none 2
      (fun _ => Resp.transportErr) (by decide)⟩

/-- Claim C5: in every run of `query_paginated`, the `after` parameter of
the first request is the empty string, and the `after` parameter of request
`k + 1` equals exactly the `pagination.cursor` string extracted from
response `k`. -/
theorem c5_cursor_threading {α : Type} (dec : Json → Option α)
    (method endpoint : String) (q : Option (List (String × String)))
    (em count : ℕ) (up : ℕ → Resp) (hm : methodValid method = true) :
    (∀ r, (query_paginated dec method endpoint q em count up).requests.get? 0 = some r →
      lastLookup "after" r.queryPairs = some "") ∧
    (∀ k r,
      (query_paginated dec method endpoint q em count up).requests.get? (k + 1) = some r →
      ∃ cs its, pageResult dec (up k) = PageRes.ok cs its ∧
        lastLookup "after" r.queryPairs = some cs) := by
  constructor
  · intro r h
    exact pagStep_head_after dec method endpoint (q.getD []) em count up hm
      (pages_to_request count em) 0 [] "" r h
  · intro k r h
    have h2 := pagStep_after_cursor dec method endpoint (q.getD []) em count up hm
      k (pages_to_request count em) 0 [] "" r h
    simpa using h2

theorem c5_cursor_threading_witness :
    ∃ cs its, pageResult (fun v => some v) (upstream3 0) = PageRes.ok cs its ∧
      lastLookup "after"
          (IssuedRequest.queryPairs ⟨"GET", "endpoint", [("first", "2"), ("after", "abc")]⟩)
        = some cs := by
  have h := (c5_cursor_threading (fun v => some v) "GET" "endpoint" none 2 5 upstream3
    (by decide)).2 0 ⟨"GET", "endpoint", [("first", "2"), ("after", "abc")]⟩ (by rfl)
  exact h

/-- Claim C8: if the pages before index `f` succeed and page `f` fails
(transport error, non-2xx status, or deserialization failure), the whole
aggregation returns that error, no further requests are made, and no partial
item list is returned.  (The guard hypothesis keeps the last page's debug
overflow check, which fires before the request, out of the picture.) -/
theorem c8_failure_aborts {α : Type} (dec : Json → Option α)
    (method endpoint : String) (q : Option (List (String × String)))
    (em count : ℕ) (up : ℕ → Resp) (c : ℕ → String) (l : ℕ → List α)
    (f : ℕ) (e : QError)
    (hm : methodValid method = true)
    (hf : f < pages_to_request count em)
    (hok : ∀ j, j < f → pageResult dec (up j) = PageRes.ok (c j) (l j))
    (hguard : f + 1 = pages_to_request count em → (catItems l 0 f).length ≤ count)
    (herr : pageResult dec (up f) = PageRes.err e) :
    (query_paginated dec method endpoint q em count up).outcome = Outcome.error e ∧
      (query_paginated dec method endpoint q em count up).requests.length = f + 1 := by
  unfold query_paginated
  exact pagStep_run_stop dec method endpoint (q.getD []) em count up c l
    (PageRes.err e) (Outcome.error e) hm rfl f (pages_to_request count em) 0 [] ""
    hf (by intro j hj; simpa using hok j hj)
    (by intro h1; simpa using hguard h1) (by simpa using herr)

theorem c8_failure_aborts_witness :
    (query_paginated (fun v => some v) "GET" "endpoint" none 2 5 upFail2).outcome
        = Outcome.error (QError.unsuccessfulStatus 500) ∧
      (query_paginated (fun v => some v) "GET" "endpoint" none 2 5 upFail2).requests.length
        = 2 := by
  have h := c8_failure_aborts (fun v => some v) "GET" "endpoint" none 2 5 upFail2
    (fun _ => "abc") (fun _ => [Json.num 1, Json.num 2]) 1
    (QError.unsuccessfulStatus 500) (by decide) (by decide)
    (by intro j hj; have : j = 0 := by omega
        subst this; rfl)
    (by intro h1; exact absurd h1 (by decide)) (by rfl)
  exact h

/-- Claim C1 counterexample: the claim says a successful `query_paginated`
call returns exactly `count` items, the final page being trimmed to the
remainder.  Running the very `test_query_paginated` scenario of the repository
(`count = 5`, `endpoint_maximum = 2`, three mocked pages of two items each,
the third answering the `first=1` request with two items) succeeds with six
items — and the test of the repository itself asserts those six: the final
page is not trimmed. -/
theorem c1_counterexample :
    (query_paginated (fun v => some v) "GET" "endpoint" none 2 5 upstream3).outcome
        = Outcome.ok [Json.num 1, Json.num 2, Json.num 3, Json.num 4,
            Json.num 5, Json.num 6] ∧
      (5 : ℕ) ≠ 6 :=
  ⟨by rfl, by decide⟩

/-- Claim C1 (amended): on success, the returned sequence is exactly the
concatenation of the decoded `data` arrays of the pages, in page order — the length
is the total number of delivered items, which equals `count` only when every
page delivers exactly its requested size; the final page is not trimmed. -/
theorem c1_amended {α : Type} (dec : Json → Option α) (method endpoint : String)
    (q : Option (List (String × String))) (em count : ℕ) (up : ℕ → Resp)
    (c : ℕ → String) (l : ℕ → List α)
    (hm : methodValid method = true)
    (hall : ∀ j, j < pages_to_request count em →
      pageResult dec (up j) = PageRes.ok (c j) (l j))
    (hfit : 1 ≤ pages_to_request count em →
      (catItems l 0 (pages_to_request count em - 1)).length ≤ count) :
    (query_paginated dec method endpoint q em count up).outcome
      = Outcome.ok (catItems l 0 (pages_to_request count em)) := by
  unfold query_paginated
  have h := pagStep_run_ok dec method endpoint (q.getD []) em count up c l hm
    (pages_to_request count em) 0 [] ""
    (by intro j hj; simpa using hall j hj)
    (by intro h1; simpa using hfit h1)
  simpa using h.1

theorem c1_amended_witness :
    (query_paginated (fun v => some v) "GET" "endpoint" none 2 5 upstream3).outcome
      = Outcome.ok (catItems its3 0 (pages_to_request 5 2)) := by
  exact c1_amended (fun v => some v) "GET" "endpoint" none 2 5 upstream3 cur3 its3
    (by decide) (fun j _ => pageResult_upstream3 j) (by intro h1; decide)

/-- Claim C4 counterexample: the claim says the number of requests always
equals `ceil(count / endpoint_maximum)`.  With `count = 2`,
`endpoint_maximum = 1` (exact ceiling 2) and a transport failure on the first
page, the run aborts after a single request. -/
theorem c4_counterexample :
    (query_paginated (fun v => some v) "GET" "streams" none 1 2
        (fun _ => Resp.transportErr)).requests.length = 1 ∧
      (1 : ℕ) ≠ 2 :=
  ⟨by rfl, by decide⟩

/-- Claim C4 (amended): on a run where every page succeeds and the
accumulated items fit `count`, the number of requests equals the page count
computed in 64-bit floating point, `(count as f64 / em as f64).ceil() as u64`
(`pages_to_request`); for `count = 5, em = 2` that is exactly 3, with page
sizes 2, 2, 1 in order — but for counts beyond the 53-bit significand the
f64 value can differ from the exact integer ceiling, e.g. at
`count = 2^53 + 1, em = 1`. -/
theorem c4_amended {α : Type} (dec : Json → Option α) (method endpoint : String)
    (q : Option (List (String × String))) (em count : ℕ) (up : ℕ → Resp)
    (c : ℕ → String) (l : ℕ → List α)
    (hm : methodValid method = true)
    (hall : ∀ j, j < pages_to_request count em →
      pageResult dec (up j) = PageRes.ok (c j) (l j))
    (hfit : 1 ≤ pages_to_request count em →
      (catItems l 0 (pages_to_request count em - 1)).length ≤ count) :
    (query_paginated dec method endpoint q em count up).requests.length
        = pages_to_request count em ∧
      pages_to_request 5 2 = 3 ∧
      (query_paginated (fun v => some v) "GET" "endpoint" none 2 5 upstream3).requests.map
          (fun r => lastLookup "first" r.queryPairs)
        = [some "2", some "2", some "1"] ∧
      pages_to_request (2 ^ 53 + 1) 1 = 2 ^ 53 := by
  refine ⟨?_, by decide, by rfl, by decide⟩
  unfold query_paginated
  have h := pagStep_run_ok dec method endpoint (q.getD []) em count up c l hm
    (pages_to_request count em) 0 [] ""
    (by intro j hj; simpa using hall j hj)
    (by intro h1; simpa using hfit h1)
  exact h.2

theorem c4_amended_witness :
    (query_paginated (fun v => some v) "GET" "endpoint" none 2 5 upstream3).requests.length
      = pages_to_request 5 2 := by
  exact (c4_amended (fun v => some v) "GET" "endpoint" none 2 5 upstream3 cur3 its3
    (by decide) (fun j _ => pageResult_upstream3 j) (by intro h1; decide)).1

/-- Claim C3 counterexample: the claim says no request ever carries
`first > endpoint_maximum`, for every upstream (explicitly including pages
that return fewer items than requested).  With `count = 5`,
`endpoint_maximum = 2` and pages delivering one item each, the final page
requests `first = 5 - 2 = 3 > 2`. -/
theorem c3_counterexample :
    (query_paginated (fun v => some v) "GET" "endpoint" none 2 5 upU).requests.map
        (fun r => lastLookup "first" r.queryPairs)
      = [some "2", some "2", some "3"] ∧
      (2 : ℕ) < 3 :=
  ⟨by rfl, by decide⟩

/-- Claim C3 (amended): every request except the final page's carries
`first` exactly equal to `endpoint_maximum`; the final page's `first` is
`count` minus the items accumulated so far, which exceeds `endpoint_maximum`
when earlier pages under-deliver. -/
theorem c3_amended {α : Type} (dec : Json → Option α) (method endpoint : String)
    (q : Option (List (String × String))) (em count : ℕ) (up : ℕ → Resp)
    (k : ℕ) (r : IssuedRequest)
    (hm : methodValid method = true)
    (hget : (query_paginated dec method endpoint q em count up).requests.get? k = some r)
    (hk : k + 1 < pages_to_request count em) :
    lastLookup "first" r.queryPairs = some (toString em) := by
  exact pagStep_first_param dec method endpoint (q.getD []) em count up hm
    k (pages_to_request count em) 0 [] "" r hget hk

theorem c3_amended_witness :
    lastLookup "first"
        (IssuedRequest.queryPairs ⟨"GET", "endpoint", [("first", "2"), ("after", "")]⟩)
      = some (toString 2) := by
  exact c3_amended (fun v => some v) "GET" "endpoint" none 2 5 upU 0
    ⟨"GET", "endpoint", [("first", "2"), ("after", "")]⟩ (by decide) (by rfl) (by decide)

/-- Claim C2 counterexample: the claim says a missing/non-string cursor or
missing/non-array data field yields a `MalformedPaginationEnvelope` error
surfaced to the caller, not a panic.  The code has no such error type: lines
204-208 call `.as_str().unwrap()` and `.as_array().unwrap()`, so an envelope
with no `pagination` block makes the run panic instead of returning an
error. -/
theorem c2_counterexample :
    (query_paginated (fun v => some v) "GET" "endpoint" none 1 1 upNoCursor).outcome
      = Outcome.panicUnwrap := by
  rfl

/-- Claim C2 (amended): when a processed envelope has a missing or non-string
`pagination.cursor`, or a missing or non-array `data` field,
`query_paginated` panics (`unwrap` on `None`) rather than returning an error
value. -/
theorem c2_amended {α : Type} (dec : Json → Option α) (method endpoint : String)
    (q : Option (List (String × String))) (em count : ℕ) (up : ℕ → Resp)
    (c : ℕ → String) (l : ℕ → List α) (f : ℕ) (raw : Json)
    (hm : methodValid method = true)
    (hf : f < pages_to_request count em)
    (hok : ∀ j, j < f → pageResult dec (up j) = PageRes.ok (c j) (l j))
    (hguard : f + 1 = pages_to_request count em → (catItems l 0 f).length ≤ count)
    (hraw : respValue (up f) (fun v => some v) = Except.ok raw)
    (hmal : envCursor raw = none ∨ envItems raw = none) :
    (query_paginated dec method endpoint q em count up).outcome = Outcome.panicUnwrap := by
  have hpanic : pageResult dec (up f) = PageRes.panic := by
    unfold pageResult
    rw [hraw]
    dsimp only
    rcases hmal with h | h
    · rw [h]
    · cases hc : envCursor raw with
      | none => rfl
      | some cs => rw [h]
  unfold query_paginated
  exact (pagStep_run_stop dec method endpoint (q.getD []) em count up c l
    PageRes.panic Outcome.panicUnwrap hm rfl f (pages_to_request count em) 0 [] ""
    hf (by intro j hj; simpa using hok j hj)
    (by intro h1; simpa using hguard h1) (by simpa using hpanic)).1

theorem c2_amended_witness :
    (query_paginated (fun v => some v) "GET" "endpoint" none 2 3 upGoodThenNoData).outcome
      = Outcome.panicUnwrap := by
  exact c2_amended (fun v => some v) "GET" "endpoint" none 2 3 upGoodThenNoData
    (fun _ => "abc") (fun _ => [Json.num 1, Json.num 2]) 1 envNoData
    (by decide) (by decide)
    (by intro j hj; have hj0 : j = 0 := by omega
        subst hj0; rfl)
    (by intro h1; decide) (by rfl) (Or.inr (by rfl))

/-- Claim C6 counterexample: the claim says an identifier that cannot be
encoded as header bytes makes the header builder fail with an
`InvalidHeaderValue` error returned to the caller.  Line 70 `unwrap`s the
`HeaderValue::from_bytes` result, so a NUL byte panics (modelled `none`):
there is no error-return path. -/
theorem c6_counterexample : get_headers [0] = none := by rfl

/-- Claim C6 (amended): the header builder is a pure function of the client
identifier that, for every identifier whose bytes are valid header bytes,
returns exactly the `client-id` header; for invalid bytes it panics via
`unwrap` rather than returning an `InvalidHeaderValue` error. -/
theorem c6_amended (clientId : List ℕ)
    (h : clientId.all headerByteValid = true) :
    get_headers clientId = some [("client-id", clientId)] := by
  simp [get_headers, h]

theorem c6_amended_witness :
    ([104, 101, 108, 108, 111] : List ℕ).all headerByteValid = true ∧
      get_headers [104, 101, 108, 108, 111]
        = some [("client-id", [104, 101, 108, 108, 111])] :=
  ⟨by decide, c6_amended [104, 101, 108, 108, 111] (by decide)⟩

/-- Claim C7 counterexample: the claim says every method string that is not a
recognized HTTP verb fails with `InvalidMethod` before any network call.
`Method::from_str` accepts any RFC 7230 token as an extension method, so the
unrecognized verb `foobar` is accepted and the request is issued. -/
theorem c7_counterexample :
    query "foobar" (Resp.response 200 (some (Json.obj []))) (fun v => some v)
      = QueryOut.called (Except.ok (Json.obj [])) := by
  rfl

/-- Claim C7 (amended): `query` fails with `InvalidMethod`, before any
network call, exactly when the method string is empty or contains a
non-token character; any nonempty token is accepted — standard verbs match
case-sensitively and anything else (including lowercase `get`) passes
through as an extension method, so validation is not against the known-verb
set and lowercase is not equivalent to uppercase on the wire. -/
theorem c7_amended (s : String) (r : Resp) {β : Type} (dec : Json → Option β) :
    (methodValid s = false → query s r dec = QueryOut.noCall QError.invalidMethod) ∧
    (methodValid s = true → query s r dec = QueryOut.called (respValue r dec)) ∧
    methodValid "get" = true ∧ methodValid "GET" = true ∧
    methodValid "" = false ∧ methodValid "G T" = false := by
  refine ⟨?_, ?_, by decide, by decide, by decide, by decide⟩
  · intro h
    simp [query, h]
  · intro h
    simp [query, h]

theorem c7_amended_witness :
    query "G T" Resp.transportErr (fun v => some v)
      = QueryOut.noCall QError.invalidMethod :=
  (c7_amended "G T" Resp.transportErr (fun v => some (v : Json))).1 (by decide)

/-- Claim C10 counterexample: the claim says the `count - items.len()`
subtraction never underflows provided every earlier page delivers at most its
requested item count.  With `endpoint_maximum = 1` and
`count = 2^63 + 1025`, the f64 page count is `2^63 + 2048`: after
`2^63 + 2047` fully compliant one-item pages the accumulator exceeds `count`,
and the final page's subtraction underflows — the run panics even though
every page delivered exactly its requested single item (second conjunct). -/
theorem c10_counterexample :
    (query_paginated (fun v => some v) "GET" "endpoint" none 1 (2 ^ 63 + 1025) upU).outcome
        = Outcome.panicOverflow ∧
      pageResult (fun v => some v) (upU 0) = PageRes.ok "k" [Json.num 7] := by
  refine ⟨?_, by rfl⟩
  unfold query_paginated
  apply pagStep_run_overflow (fun v => some v) "GET" "endpoint" [] 1 (2 ^ 63 + 1025)
    upU (fun _ => "k") (fun _ => [Json.num 7]) (by decide) (fun j => rfl)
    (pages_to_request (2 ^ 63 + 1025) 1) 0 [] ""
  · decide
  · rw [catItems_len_const]
    decide

/-- Claim C10 (amended): the last page's requested size is the unsigned
subtraction `count - items.len()`; it cannot underflow when every earlier
page delivers at most its requested `endpoint_maximum` items AND the planned
page count satisfies `(pages - 1) · em ≤ count` (true whenever the f64
ceiling equals the exact one, e.g. for counts below `2^53`); for an upstream
where a page over-delivers, the subtraction underflows and the computation
panics (debug overflow check) rather than returning an error. -/
theorem c10_amended {α : Type} (dec : Json → Option α) (method endpoint : String)
    (q : Option (List (String × String))) (em count : ℕ) (up : ℕ → Resp)
    (hm : methodValid method = true)
    (hcomp : ∀ j, j + 1 < pages_to_request count em → ∀ cs its,
      pageResult dec (up j) = PageRes.ok cs its → its.length ≤ em)
    (hbound : (pages_to_request count em - 1) * em ≤ count) :
    (query_paginated dec method endpoint q em count up).outcome
        ≠ Outcome.panicOverflow ∧
      (query_paginated (fun v => some v) "GET" "endpoint" none 2 5 upOver).outcome
        = Outcome.panicOverflow := by
  refine ⟨?_, by rfl⟩
  unfold query_paginated
  apply pagStep_no_overflow dec method endpoint (q.getD []) em count up hm
    (pages_to_request count em) 0 [] ""
  · intro j hj cs its h
    exact hcomp j (by simpa using hj) cs its h
  · simpa using hbound

theorem c10_amended_witness :
    (query_paginated (fun v => some v) "GET" "endpoint" none 2 5 upstream3).outcome
      ≠ Outcome.panicOverflow := by
  refine (c10_amended (fun v => some v) "GET" "endpoint" none 2 5 upstream3
    (by decide) ?_ (by decide)).1
  intro j hj cs its h
  rw [pageResult_upstream3 j] at h
  cases h
  rw [its3_len j]
